import Mathlib

/-!
Verification of the map-contour-mapper geospatial core.

The Python source (`map_contour_mapper/__main__.py`, `app.py`,
`app_monetized.py`) is shallowly embedded here: exact numeric code is
modelled over `ℚ` (tile decoding, contour-level planning, zoom selection,
crop-window arithmetic, mosaic assembly) and the Web-Mercator projector and
overlay mapper, which use `sin` and `log`, are modelled over `ℝ`.
Rasters use `Option ℚ` values, `none` standing for the NaN fill of the
mosaic buffer; fallible operations return `Except String`.
-/

namespace MapContourMapper

/-- Tile edge length in pixels (`TILE_SIZE = 256` in the source). -/
def TILE_SIZE : ℕ := 256

/-! ## Tile Decoder (`decode_terrarium`) -/

/-- Per-pixel Terrarium decoding applied by `decode_terrarium`:
`elev = r * 256.0 + g + b / 256.0 - 32768.0` on the three colour
channels of a pixel.  Channel values are the 0..255 bytes of the image;
arithmetic is exact over `ℚ` (the float32 computation is exact on this
range). -/
def decode_pixel (p : ℕ × ℕ × ℕ) : ℚ :=
  (p.1 : ℚ) * 256 + (p.2.1 : ℚ) + (p.2.2 : ℚ) / 256 - 32768

/-- `decode_terrarium`: decodes a whole tile image (a grid of RGB pixels)
into a grid of elevations by applying `decode_pixel` pixelwise. -/
def decode_terrarium (img : List (List (ℕ × ℕ × ℕ))) : List (List ℚ) :=
  img.map (fun row => row.map decode_pixel)

/-! ## Zoom selection heuristic (`generate_contour_map` in `app.py`;
`app_monetized.py` carries the identical code) -/

/-- The zoom-selection code from `generate_contour_map`: spans of the
bounding box, `area_size = max lon_diff lat_diff`, then the fixed
threshold chain. -/
def select_zoom (min_lon min_lat max_lon max_lat : ℚ) : ℕ :=
  let lon_diff := max_lon - min_lon
  let lat_diff := max_lat - min_lat
  let area_size := max lon_diff lat_diff
  if area_size > 2 then 8
  else if area_size > 1 then 9
  else if area_size > 0.5 then 10
  else if area_size > 0.2 then 11
  else if area_size > 0.1 then 12
  else if area_size > 0.05 then 13
  else 14

/-- The zoom thresholds exactly as the spec words them, as a function of
`areaSize` alone: areaSize>2.0 gives 8, >1.0 gives 9, >0.5 gives 10,
>0.2 gives 11, >0.1 gives 12, >0.05 gives 13, otherwise 14. -/
def zoom_thresholds (areaSize : ℚ) : ℕ :=
  if areaSize > 2 then 8
  else if areaSize > 1 then 9
  else if areaSize > 0.5 then 10
  else if areaSize > 0.2 then 11
  else if areaSize > 0.1 then 12
  else if areaSize > 0.05 then 13
  else 14

/-! ## Level Planner (`main` lines 187-198 / `generate_contour_map`) -/

/-- `np.arange start stop step` for a positive step, in exact arithmetic:
`⌈(stop - start) / step⌉` elements `start, start + step, ...` (numpy's
half-open range). -/
def arange (start stop step : ℚ) : List ℚ :=
  (List.range (⌈(stop - start) / step⌉).toNat).map
    (fun i => start + (i : ℚ) * step)

/-- The contour-level planning code: substitute the auto interval when the
requested one is `≤ 0`, snap `start`/`stop` to interval multiples with
floor/ceil, and return `np.arange start (stop + interval) interval`
together with the interval actually used. -/
def plan_levels (min_e max_e interval0 : ℚ) : ℚ × List ℚ :=
  let interval := if interval0 ≤ 0 then max 1 ((max_e - min_e) / 15) else interval0
  let start := (⌊min_e / interval⌋ : ℚ) * interval
  let stop := (⌈max_e / interval⌉ : ℚ) * interval
  (interval, arange start (stop + interval) interval)

/-! ## Mosaic Assembler (`build_elevation_mosaic` lines 74-85)

The mosaic buffer is a function `ℤ → ℤ → Option ℚ` (row, column; `none`
is the NaN pre-fill).  A fetched tile is a total grid `ℤ → ℤ → ℚ`;
`fetch t = none` models a failed HTTP fetch or decode for tile `t`.  The
source loop calls `raise_for_status()` on each response, so a failed
fetch raises out of the loop: the embedding returns an error at the
first failing tile. -/

/-- Write one decoded tile into the mosaic buffer at row offset `oy`,
column offset `ox` (`mosaic[oy : oy + TILE_SIZE, ox : ox + TILE_SIZE] = tile_elev`). -/
def write_tile (mosaic : ℤ → ℤ → Option ℚ) (oy ox : ℤ) (tile : ℤ → ℤ → ℚ) :
    ℤ → ℤ → Option ℚ :=
  fun i j =>
    if oy ≤ i ∧ i < oy + 256 ∧ ox ≤ j ∧ j < ox + 256 then
      some (tile (i - oy) (j - ox))
    else mosaic i j

/-- The fetch loop of `build_elevation_mosaic`: for each tile in order,
fetch and decode it (raising — returning `Except.error` — on failure),
then blit it at offset `((t.y - min_ty) * 256, (t.x - min_tx) * 256)`. -/
def assemble_tiles (fetch : ℤ × ℤ → Option (ℤ → ℤ → ℚ)) (min_tx min_ty : ℤ) :
    List (ℤ × ℤ) → (ℤ → ℤ → Option ℚ) → Except String (ℤ → ℤ → Option ℚ)
  | [], mosaic => .ok mosaic
  | t :: rest, mosaic =>
    match fetch t with
    | none => .error "TileFetchFailure"
    | some g =>
        assemble_tiles fetch min_tx min_ty rest
          (write_tile mosaic ((t.2 - min_ty) * 256) ((t.1 - min_tx) * 256) g)

/-- `build_elevation_mosaic`'s assembly phase: run the fetch loop over the
NaN-pre-filled buffer (`np.full (...) np.nan`). -/
def build_mosaic (tiles : List (ℤ × ℤ)) (fetch : ℤ × ℤ → Option (ℤ → ℤ → ℚ))
    (min_tx min_ty : ℤ) : Except String (ℤ → ℤ → Option ℚ) :=
  assemble_tiles fetch min_tx min_ty tiles (fun _ _ => none)

/-- Pixel `(i, j)` of the mosaic lies in the sub-rectangle written by
tile `t`. -/
def in_tile_region (min_tx min_ty : ℤ) (t : ℤ × ℤ) (i j : ℤ) : Prop :=
  (t.2 - min_ty) * 256 ≤ i ∧ i < (t.2 - min_ty) * 256 + 256 ∧
  (t.1 - min_tx) * 256 ≤ j ∧ j < (t.1 - min_tx) * 256 + 256

/-- Number of tiles of the set whose fetch fails. -/
def failed_count (tiles : List (ℤ × ℤ)) (fetch : ℤ × ℤ → Option (ℤ → ℤ → ℚ)) : ℕ :=
  (tiles.filter (fun t => (fetch t).isNone)).length

/-! ## Crop window (`build_elevation_mosaic` lines 90-102)

The projected bbox corners `x0, x1, y_top, y_bottom` are abstracted as
rational inputs (the projector produces them as reals; the crop
arithmetic itself is exact).  `mercantile.tiles` is an external
dependency, so the tile range it produces is modelled from the spec. -/

/-- Modelled from the spec: the Tile Resolver (`mercantile.tiles` in the
source, an external library).  Per section 4.2 it converts the bbox
corners to tile indices by integer division of global pixel coordinates
by the tile size and takes the inclusive integer range in each axis;
the corner pixels are `(x0, y_top)` (top-left) and `(x1, y_bottom)`
(bottom-right).  Returns `(min_tx, max_tx, min_ty, max_ty)`. -/
def resolve_tile_range (x0 x1 y_top y_bottom : ℚ) : ℤ × ℤ × ℤ × ℤ :=
  (⌊x0 / 256⌋, ⌊x1 / 256⌋, ⌊y_top / 256⌋, ⌊y_bottom / 256⌋)

/-- The integer crop bounds of lines 93-96:
`left = max 0 ⌊x0 - ox⌋`, `right = min mosaic_w ⌈x1 - ox⌉`,
`top = max 0 ⌊y_top - oy⌋`, `bottom = min mosaic_h ⌈y_bottom - oy⌉`,
with `ox = min_tx * 256`, `oy = min_ty * 256`,
`mosaic_w = (max_tx - min_tx + 1) * 256`, `mosaic_h = (max_ty - min_ty + 1) * 256`.
Returns `(left, top, right, bottom)` as the source's `crop_box` does. -/
def crop_window (x0 x1 y_top y_bottom : ℚ) (min_tx max_tx min_ty max_ty : ℤ) :
    ℤ × ℤ × ℤ × ℤ :=
  let mosaic_w := (max_tx - min_tx + 1) * 256
  let mosaic_h := (max_ty - min_ty + 1) * 256
  let ox := min_tx * 256
  let oy := min_ty * 256
  (max 0 ⌊x0 - (ox : ℚ)⌋, max 0 ⌊y_top - (oy : ℚ)⌋,
   min mosaic_w ⌈x1 - (ox : ℚ)⌉, min mosaic_h ⌈y_bottom - (oy : ℚ)⌉)

/-- Lines 98-102: slice the mosaic to `[top:bottom, left:right]` and raise
when the slice is empty (`cropped.size == 0`); the slice has
`max 0 (bottom - top) * max 0 (right - left)` elements for in-range
bounds.  On success returns the crop box `(left, top, right, bottom)`. -/
def crop_mosaic (x0 x1 y_top y_bottom : ℚ) (min_tx max_tx min_ty max_ty : ℤ) :
    Except String (ℤ × ℤ × ℤ × ℤ) :=
  let w := crop_window x0 x1 y_top y_bottom min_tx max_tx min_ty max_ty
  if max 0 (w.2.2.2 - w.2.1) * max 0 (w.2.2.1 - w.1) = 0 then
    .error "EmptyCrop"
  else .ok (w.1, w.2.1, w.2.2.1, w.2.2.2)

/-! ## Projector (`lonlat_to_global_pixel`) and Overlay Mapper
(`scale_coordinates_to_output`), over `ℝ` -/

noncomputable section

/-- `lonlat_to_global_pixel`: the Web-Mercator forward transform of the
source, with `scale = TILE_SIZE * 2 ** zoom`, `math.radians(lat)` as
`lat * (π / 180)` and the sine clamped via
`min (max siny (-0.9999)) 0.9999`. -/
def lonlat_to_global_pixel (lon lat : ℝ) (zoom : ℕ) : ℝ × ℝ :=
  let scale : ℝ := (TILE_SIZE : ℝ) * 2 ^ zoom
  let x := (lon + 180) / 360 * scale
  let lat_rad := lat * (Real.pi / 180)
  let siny := min (max (Real.sin lat_rad) (-0.9999)) 0.9999
  let y := (0.5 - Real.log ((1 + siny) / (1 - siny)) / (4 * Real.pi)) * scale
  (x, y)

/-- The projector exactly as the spec words it: `scale = tileSize × 2^zoom`
(tileSize 256 for this source), `px = (lon+180)/360 × scale`, latitude
converted to radians, its sine clamped to the interval
`[-0.9999, 0.9999]`, and
`py = (0.5 − ln((1+sinφ)/(1−sinφ))/(4π)) × scale`. -/
def projector_spec (lon lat : ℝ) (zoom : ℕ) : ℝ × ℝ :=
  let scale : ℝ := 256 * 2 ^ zoom
  let sinphi := max (-0.9999) (min (Real.sin (lat * (Real.pi / 180))) 0.9999)
  ((lon + 180) / 360 * scale,
   (0.5 - Real.log ((1 + sinphi) / (1 - sinphi)) / (4 * Real.pi)) * scale)

/-- The clamped sine of the latitude, as computed inside
`lonlat_to_global_pixel`. -/
def clamped_siny (lat : ℝ) : ℝ :=
  min (max (Real.sin (lat * (Real.pi / 180))) (-0.9999)) 0.9999

/-- The per-point mapping of the inner loop of
`scale_coordinates_to_output` (lines 143-147): project, subtract the
mosaic origin and the crop top-left, scale by `(scale_x, scale_y)`. -/
def map_point (zoom : ℕ) (origin_x origin_y crop_left crop_top : ℤ)
    (scale_x scale_y : ℝ) (p : ℝ × ℝ) : ℝ × ℝ :=
  let g := lonlat_to_global_pixel p.1 p.2 zoom
  ((g.1 - (origin_x : ℝ) - (crop_left : ℝ)) * scale_x,
   (g.2 - (origin_y : ℝ) - (crop_top : ℝ)) * scale_y)

/-- `scale_coordinates_to_output`: each line is mapped pointwise by
`map_point`; the mapped line `pts` is kept only when `len(pts) >= 2`. -/
def scale_coordinates_to_output (lines_lonlat : List (List (ℝ × ℝ))) (zoom : ℕ)
    (origin_x origin_y crop_left crop_top : ℤ) (scale_x scale_y : ℝ) :
    List (List (ℝ × ℝ)) :=
  lines_lonlat.filterMap (fun line =>
    let pts := line.map (map_point zoom origin_x origin_y crop_left crop_top scale_x scale_y)
    if 2 ≤ pts.length then some pts else none)

/-- The Overlay Mapper's output coordinate exactly as the spec words it:
(projected global pixel − mosaicOrigin − crop window top-left) scaled by
`(scaleX, scaleY)`. -/
def overlay_point_spec (zoom : ℕ) (origin_x origin_y crop_left crop_top : ℤ)
    (scale_x scale_y : ℝ) (p : ℝ × ℝ) : ℝ × ℝ :=
  (((lonlat_to_global_pixel p.1 p.2 zoom).1 - (origin_x : ℝ) - (crop_left : ℝ)) * scale_x,
   ((lonlat_to_global_pixel p.1 p.2 zoom).2 - (origin_y : ℝ) - (crop_top : ℝ)) * scale_y)

end

/-! ## Theorems -/

/-- C3: for every tile pixel with channel values (R, G, B), the decoder
returns exactly `R*256 + G + B/256 - 32768` meters at that pixel
position; in particular (1,0,0) decodes to -32512, (0,0,0) to -32768,
and (128,0,0) to 0. -/
theorem decode_terrarium_formula (img : List (List (ℕ × ℕ × ℕ))) (i j : ℕ) :
    ((decode_terrarium img)[i]?.bind fun row => row[j]?) =
      (img[i]?.bind fun row => row[j]?).map
        (fun p => (p.1 : ℚ) * 256 + (p.2.1 : ℚ) + (p.2.2 : ℚ) / 256 - 32768) ∧
    decode_pixel (1, 0, 0) = -32512 ∧
    decode_pixel (0, 0, 0) = -32768 ∧
    decode_pixel (128, 0, 0) = 0 := by
  refine ⟨?_, by norm_num [decode_pixel], by norm_num [decode_pixel],
    by norm_num [decode_pixel]⟩
  simp only [decode_terrarium, List.getElem?_map]
  cases himg : img[i]? with
  | none => rfl
  | some row =>
    simp only [Option.map_some', Option.some_bind, List.getElem?_map]
    cases row[j]? with
    | none => rfl
    | some p => simp [decode_pixel]

/-- C9: for every bounding box, the zoom level is chosen from
`areaSize = max lonSpan latSpan` by exactly the fixed thresholds
(>2.0 gives 8, >1.0 gives 9, >0.5 gives 10, >0.2 gives 11, >0.1 gives 12,
>0.05 gives 13, otherwise 14); the boundary values themselves fall in
the next band because the comparisons are strict. -/
theorem select_zoom_matches_thresholds (min_lon min_lat max_lon max_lat : ℚ) :
    select_zoom min_lon min_lat max_lon max_lat =
      zoom_thresholds (max (max_lon - min_lon) (max_lat - min_lat)) ∧
    zoom_thresholds 2.5 = 8 ∧ zoom_thresholds 2 = 9 ∧
    zoom_thresholds 0.051 = 13 ∧ zoom_thresholds 0.05 = 14 := by
  refine ⟨rfl, ?_, ?_, ?_, ?_⟩ <;> norm_num [zoom_thresholds]

/-- C4: for every longitude, latitude and zoom level, the Projector
returns exactly the pair described by the spec: `scale = 256 * 2^zoom`,
`px = (lon+180)/360 * scale`, and
`py = (0.5 - ln((1+sinφ)/(1-sinφ))/(4π)) * scale` with sinφ the sine of
the latitude in radians clamped to [-0.9999, 0.9999]; it is a total
(pure) function. -/
theorem projector_matches_spec (lon lat : ℝ) (zoom : ℕ) :
    lonlat_to_global_pixel lon lat zoom = projector_spec lon lat zoom := by
  have hc : (-0.9999 : ℝ) ≤ 0.9999 := by norm_num
  unfold lonlat_to_global_pixel projector_spec
  rw [max_min_distrib_left, max_eq_right hc, max_comm]
  norm_num [TILE_SIZE]

/-- C10: the Overlay Mapper produces exactly one output point per input
point of each line (mapping never filters individual points), so every
kept output line has the same number of points as its input line, and a
line is dropped exactly when its input has fewer than 2 points. -/
theorem overlay_point_count (lines_lonlat : List (List (ℝ × ℝ))) (zoom : ℕ)
    (ox oy cl ct : ℤ) (sx sy : ℝ) :
    scale_coordinates_to_output lines_lonlat zoom ox oy cl ct sx sy =
      (lines_lonlat.filter (fun l => 2 ≤ l.length)).map
        (fun l => l.map (map_point zoom ox oy cl ct sx sy)) ∧
    ∀ l : List (ℝ × ℝ), (l.map (map_point zoom ox oy cl ct sx sy)).length = l.length := by
  refine ⟨?_, fun l => List.length_map l _⟩
  induction lines_lonlat with
  | nil => rfl
  | cons l ls ih =>
    simp only [scale_coordinates_to_output, List.filterMap_cons, List.filter_cons,
      List.length_map] at *
    by_cases h : 2 ≤ l.length
    · simp [h, ih]
    · simp [h, ih]

/-- C6 (amended): the Overlay Mapper drops a line exactly when it has
fewer than 2 points, counted with multiplicity, after mapping — which is
exactly when the input line has fewer than 2 points; a 2-point line
whose endpoints map to the same output coordinate is kept, not
dropped. -/
theorem overlay_drop_rule (lines_lonlat : List (List (ℝ × ℝ))) (zoom : ℕ)
    (ox oy cl ct : ℤ) (sx sy : ℝ) :
    scale_coordinates_to_output lines_lonlat zoom ox oy cl ct sx sy =
      lines_lonlat.filterMap (fun line =>
        if 2 ≤ line.length then
          some (line.map (map_point zoom ox oy cl ct sx sy))
        else none) ∧
    ∀ p : ℝ × ℝ,
      scale_coordinates_to_output [[p, p]] zoom ox oy cl ct sx sy =
        [[map_point zoom ox oy cl ct sx sy p, map_point zoom ox oy cl ct sx sy p]] := by
  constructor
  · simp only [scale_coordinates_to_output, List.length_map]
  · intro p; rfl

/-- C6 (counterexample): a 2-point line whose endpoints map to the same
output coordinate is NOT dropped: mapping the duplicated point (0, 0)
yields a kept output line of two equal points, so the output has one
line, not zero. -/
theorem overlay_collapsed_line_kept :
    scale_coordinates_to_output [[((0 : ℝ), (0 : ℝ)), ((0 : ℝ), (0 : ℝ))]] 0 0 0 0 0 1 1 =
      [[map_point 0 0 0 0 0 1 1 ((0 : ℝ), (0 : ℝ)),
        map_point 0 0 0 0 0 1 1 ((0 : ℝ), (0 : ℝ))]] ∧
    (scale_coordinates_to_output [[((0 : ℝ), (0 : ℝ)), ((0 : ℝ), (0 : ℝ))]] 0 0 0 0 0 1 1).length
      = 1 := by
  exact ⟨rfl, rfl⟩

/-- C5: every input line with at least 2 points is mapped pointwise into
the output, and each point's output coordinate is exactly
(projected global pixel − mosaicOrigin − crop top-left) × (scaleX, scaleY),
with no clamping against the crop window. -/
theorem overlay_unclamped_formula (lines_lonlat : List (List (ℝ × ℝ))) (zoom : ℕ)
    (ox oy cl ct : ℤ) (sx sy : ℝ) (line : List (ℝ × ℝ))
    (hmem : line ∈ lines_lonlat) (hlen : 2 ≤ line.length) :
    line.map (map_point zoom ox oy cl ct sx sy) ∈
      scale_coordinates_to_output lines_lonlat zoom ox oy cl ct sx sy ∧
    ∀ p ∈ line, map_point zoom ox oy cl ct sx sy p =
      overlay_point_spec zoom ox oy cl ct sx sy p := by
  constructor
  · unfold scale_coordinates_to_output
    refine List.mem_filterMap.mpr ⟨line, hmem, ?_⟩
    simp [hlen]
  · intro p _
    rfl

/-- C5 (witness): a concrete 2-point line lying far outside the crop
window (crop top-left offset 1000000) is still mapped, with the exact
unclamped coordinates. -/
theorem overlay_unclamped_formula_witness :
    ([((200 : ℝ), (40 : ℝ)), ((201 : ℝ), (41 : ℝ))].map
        (map_point 12 0 0 1000000 1000000 1 1) ∈
      scale_coordinates_to_output [[((200 : ℝ), (40 : ℝ)), ((201 : ℝ), (41 : ℝ))]]
        12 0 0 1000000 1000000 1 1) ∧
    ∀ p ∈ [((200 : ℝ), (40 : ℝ)), ((201 : ℝ), (41 : ℝ))],
      map_point 12 0 0 1000000 1000000 1 1 p =
        overlay_point_spec 12 0 0 1000000 1000000 1 1 p :=
  overlay_unclamped_formula [[((200 : ℝ), (40 : ℝ)), ((201 : ℝ), (41 : ℝ))]]
    12 0 0 1000000 1000000 1 1
    [((200 : ℝ), (40 : ℝ)), ((201 : ℝ), (41 : ℝ))]
    (by simp) (by simp)

/-! ### Mosaic assembly lemmas -/

/-- A written tile cell is populated iff the position is inside the
written rectangle or was already populated. -/
theorem write_tile_isSome (mosaic : ℤ → ℤ → Option ℚ) (oy ox : ℤ)
    (g : ℤ → ℤ → ℚ) (i j : ℤ) :
    (write_tile mosaic oy ox g i j).isSome = true ↔
      ((oy ≤ i ∧ i < oy + 256 ∧ ox ≤ j ∧ j < ox + 256) ∨
        (mosaic i j).isSome = true) := by
  unfold write_tile
  by_cases hc : oy ≤ i ∧ i < oy + 256 ∧ ox ≤ j ∧ j < ox + 256 <;> simp [hc]

/-- The fetch loop succeeds exactly when every remaining tile fetch
succeeds. -/
theorem assemble_tiles_isOk (fetch : ℤ × ℤ → Option (ℤ → ℤ → ℚ))
    (min_tx min_ty : ℤ) (tiles : List (ℤ × ℤ)) (mosaic : ℤ → ℤ → Option ℚ) :
    (assemble_tiles fetch min_tx min_ty tiles mosaic).isOk = true ↔
      ∀ t ∈ tiles, (fetch t).isSome = true := by
  induction tiles generalizing mosaic with
  | nil => simp [assemble_tiles, Except.isOk, Except.toBool]
  | cons t rest ih =>
    cases hf : fetch t with
    | none => simp [assemble_tiles, hf, Except.isOk, Except.toBool]
    | some g => simp [assemble_tiles, hf, ih]

/-- After a successful fetch loop, a cell is populated iff it was
populated before or lies in the rectangle of one of the processed
tiles. -/
theorem assemble_tiles_isSome (fetch : ℤ × ℤ → Option (ℤ → ℤ → ℚ))
    (min_tx min_ty : ℤ) (tiles : List (ℤ × ℤ)) (mosaic result : ℤ → ℤ → Option ℚ)
    (h : assemble_tiles fetch min_tx min_ty tiles mosaic = .ok result) (i j : ℤ) :
    (result i j).isSome = true ↔
      ((mosaic i j).isSome = true ∨
        ∃ t ∈ tiles, in_tile_region min_tx min_ty t i j) := by
  induction tiles generalizing mosaic with
  | nil =>
    simp only [assemble_tiles, Except.ok.injEq] at h
    subst h
    simp
  | cons t rest ih =>
    cases hf : fetch t with
    | none => simp [assemble_tiles, hf] at h
    | some g =>
      simp only [assemble_tiles, hf] at h
      rw [ih _ h, write_tile_isSome]
      unfold in_tile_region
      constructor
      · rintro ((hr | hm) | ⟨u, hu, hru⟩)
        · exact Or.inr ⟨t, List.mem_cons_self t rest, hr⟩
        · exact Or.inl hm
        · exact Or.inr ⟨u, List.mem_cons_of_mem t hu, hru⟩
      · rintro (hm | ⟨u, hu, hru⟩)
        · exact Or.inl (Or.inr hm)
        · rcases List.mem_cons.mp hu with he | hu2
          · exact Or.inl (Or.inl (he ▸ hru))
          · exact Or.inr ⟨u, hu2, hru⟩

/-- C1 (amended): mosaic assembly aborts on the first per-tile
fetch/decode failure — it succeeds iff every tile fetch succeeds
(M = 0), and on success every pixel inside some tile rectangle is
populated while pixels outside every tile rectangle remain NaN (0
all-NaN tile rectangles). -/
theorem mosaic_abort_on_failure (tiles : List (ℤ × ℤ))
    (fetch : ℤ × ℤ → Option (ℤ → ℤ → ℚ)) (min_tx min_ty : ℤ) :
    ((build_mosaic tiles fetch min_tx min_ty).isOk = true ↔
      ∀ t ∈ tiles, (fetch t).isSome = true) ∧
    (∀ result, build_mosaic tiles fetch min_tx min_ty = .ok result →
      ∀ i j : ℤ, (result i j).isSome = true ↔
        ∃ t ∈ tiles, in_tile_region min_tx min_ty t i j) := by
  constructor
  · exact assemble_tiles_isOk fetch min_tx min_ty tiles _
  · intro result h i j
    have hall := assemble_tiles_isSome fetch min_tx min_ty tiles _ result h i j
    simpa using hall

/-- A constant decoded tile grid used by the concrete mosaic examples. -/
def demo_tile_grid : ℤ → ℤ → ℚ := fun _ _ => 7

/-- A fetcher for which every tile fetch succeeds. -/
def demo_fetch_ok : ℤ × ℤ → Option (ℤ → ℤ → ℚ) := fun _ => some demo_tile_grid

/-- A fetcher that succeeds on tile column 0 and fails elsewhere. -/
def demo_fetch_one_failed : ℤ × ℤ → Option (ℤ → ℤ → ℚ) :=
  fun t => if t.1 = 0 then some demo_tile_grid else none

/-- C1 (witness): with one tile and a fully successful fetcher, assembly
succeeds. -/
theorem mosaic_abort_on_failure_witness :
    (build_mosaic [((0 : ℤ), (0 : ℤ))] demo_fetch_ok 0 0).isOk = true :=
  (mosaic_abort_on_failure [((0 : ℤ), (0 : ℤ))] demo_fetch_ok 0 0).1.mpr
    (fun _ _ => rfl)

/-- C1 (counterexample): with N = 2 tiles of which M = 1 fails to fetch,
assembly fails — refuting the claim that a per-tile failure does not
abort the mosaic and that the operation fails only when every tile
fails (M = N). -/
theorem mosaic_per_tile_failure_aborts :
    (build_mosaic [((0 : ℤ), (0 : ℤ)), ((1 : ℤ), (0 : ℤ))] demo_fetch_one_failed 0 0).isOk
      = false ∧
    failed_count [((0 : ℤ), (0 : ℤ)), ((1 : ℤ), (0 : ℤ))] demo_fetch_one_failed = 1 ∧
    ([((0 : ℤ), (0 : ℤ)), ((1 : ℤ), (0 : ℤ))] : List (ℤ × ℤ)).length = 2 := by
  refine ⟨rfl, rfl, rfl⟩

/-! ### Level Planner -/

/-- C2: for every finite value range `min_e ≤ max_e` and every requested
interval, the planner uses the requested interval when it is positive and
otherwise `max 1 ((max_e - min_e) / 15)`, and returns exactly the closed
arithmetic sequence from `start = ⌊min_e/interval⌋ * interval` to
`stop = ⌈max_e/interval⌉ * interval` inclusive with step `interval`
(the last listed level equals `stop`); in particular
`min_e = 10, max_e = 47, interval = 10` yields `[10, 20, 30, 40, 50]`
and `min_e = 0, max_e = 150` with requested interval `-1 ≤ 0` yields
interval 10 and levels `[0, 10, ..., 150]`. -/
theorem plan_levels_closed_sequence (min_e max_e interval0 interval : ℚ) (a b : ℤ)
    (hle : min_e ≤ max_e)
    (hi : interval = if interval0 ≤ 0 then max 1 ((max_e - min_e) / 15) else interval0)
    (ha : a = ⌊min_e / interval⌋) (hb : b = ⌈max_e / interval⌉) :
    plan_levels min_e max_e interval0 =
      (interval, (List.range ((b - a).toNat + 1)).map
        (fun i => (a : ℚ) * interval + (i : ℚ) * interval)) ∧
    (a : ℚ) * interval + (((b - a).toNat : ℚ)) * interval = (b : ℚ) * interval ∧
    plan_levels 10 47 10 = (10, [10, 20, 30, 40, 50]) ∧
    plan_levels 0 150 (-1) =
      (10, [0, 10, 20, 30, 40, 50, 60, 70, 80, 90, 100, 110, 120, 130, 140, 150]) := by
  have hpos : 0 < interval := by
    rw [hi]
    split_ifs with h0
    · exact lt_of_lt_of_le one_pos (le_max_left _ _)
    · exact lt_of_not_ge h0
  have hne : interval ≠ 0 := ne_of_gt hpos
  have hab : a ≤ b := by
    have h1 : (a : ℚ) ≤ min_e / interval := ha ▸ Int.floor_le _
    have h2 : max_e / interval ≤ (b : ℚ) := hb ▸ Int.le_ceil _
    have h3 : min_e / interval ≤ max_e / interval :=
      (div_le_div_iff_of_pos_right hpos).mpr hle
    exact_mod_cast h1.trans (h3.trans h2)
  have hcast : (((b - a).toNat : ℚ)) = (b : ℚ) - (a : ℚ) := by
    have h4 : (((b - a).toNat : ℤ)) = b - a := Int.toNat_of_nonneg (sub_nonneg.mpr hab)
    exact_mod_cast congrArg (fun z : ℤ => (z : ℚ)) h4
  refine ⟨?_, ?_, ?_, ?_⟩
  · have key : plan_levels min_e max_e interval0 =
        (interval, arange ((a : ℚ) * interval) ((b : ℚ) * interval + interval) interval) := by
      simp only [plan_levels]
      rw [← hi, ← ha, ← hb]
    rw [key]
    have hcount : (⌈((b : ℚ) * interval + interval - (a : ℚ) * interval) / interval⌉).toNat
        = (b - a).toNat + 1 := by
      have hq : ((b : ℚ) * interval + interval - (a : ℚ) * interval) / interval
          = ((b - a + 1 : ℤ) : ℚ) := by
        field_simp
        ring
      rw [hq, Int.ceil_intCast]
      omega
    unfold arange
    rw [hcount]
  · rw [hcast]; ring
  · have hx1 : (⌊(10 : ℚ) / 10⌋ : ℤ) = 1 := by
      rw [Int.floor_eq_iff]; norm_num
    have hx2 : (⌈(47 : ℚ) / 10⌉ : ℤ) = 5 := by
      rw [Int.ceil_eq_iff]; norm_num
    have hx3 : ¬ ((10 : ℚ) ≤ 0) := by norm_num
    simp only [plan_levels, if_neg hx3, hx1, hx2, arange]
    norm_num
    simp only [show Int.toNat 5 = 5 from rfl, List.range_succ, List.range_zero]
    simp
    norm_num
  · have hy0 : ((-1 : ℚ) ≤ 0) := by norm_num
    have hymax : max (1 : ℚ) ((150 - 0) / 15) = 10 := by norm_num
    have hy1 : (⌊(0 : ℚ) / 10⌋ : ℤ) = 0 := by
      rw [Int.floor_eq_iff]; norm_num
    have hy2 : (⌈(150 : ℚ) / 10⌉ : ℤ) = 15 := by
      rw [Int.ceil_eq_iff]; norm_num
    simp only [plan_levels, if_pos hy0, hymax, hy1, hy2, arange]
    norm_num
    simp only [show Int.toNat 16 = 16 from rfl, List.range_succ, List.range_zero]
    simp
    norm_num

/-- C2 (witness): the general closed-sequence shape evaluated at
`min_e = 10, max_e = 47, interval = 10` with `a = 1, b = 5`. -/
theorem plan_levels_closed_sequence_witness :
    plan_levels 10 47 10 =
      (10, (List.range (((5 : ℤ) - 1).toNat + 1)).map
        (fun i => ((1 : ℤ) : ℚ) * 10 + (i : ℚ) * 10)) :=
  (plan_levels_closed_sequence 10 47 10 10 1 5 (by norm_num)
    (by norm_num)
    (by rw [show (⌊(10 : ℚ) / 10⌋ : ℤ) = 1 by rw [Int.floor_eq_iff]; norm_num])
    (by rw [show (⌈(47 : ℚ) / 10⌉ : ℤ) = 5 by rw [Int.ceil_eq_iff]; norm_num])).1

/-! ### Crop window -/

/-- C7: for projected bbox corners `(x0, y_top)` and `(x1, y_bottom)` and a
tile range produced by the Tile Resolver for those corners, the crop
window is clamped within `[0, mosaicPixelExtent]` on both axes (with
`left ≤ right` and `top ≤ bottom`), and the crop step fails (EmptyCrop)
iff the sliced window has zero area. -/
theorem crop_window_clamped (x0 x1 y_top y_bottom : ℚ)
    (min_tx max_tx min_ty max_ty left top right bottom : ℤ)
    (hx : x0 ≤ x1) (hy : y_top ≤ y_bottom)
    (hres : resolve_tile_range x0 x1 y_top y_bottom = (min_tx, max_tx, min_ty, max_ty))
    (hw : crop_window x0 x1 y_top y_bottom min_tx max_tx min_ty max_ty
      = (left, top, right, bottom)) :
    (0 ≤ left ∧ left ≤ right ∧ right ≤ (max_tx - min_tx + 1) * 256 ∧
     0 ≤ top ∧ top ≤ bottom ∧ bottom ≤ (max_ty - min_ty + 1) * 256) ∧
    ((crop_mosaic x0 x1 y_top y_bottom min_tx max_tx min_ty max_ty).isOk = false ↔
      max 0 (bottom - top) * max 0 (right - left) = 0) := by
  have hw0 := hw
  simp only [resolve_tile_range, Prod.mk.injEq] at hres
  obtain ⟨e1, e2, e3, e4⟩ := hres
  simp only [crop_window, Prod.mk.injEq] at hw
  obtain ⟨hl, ht, hr, hb⟩ := hw
  have h256 : (0 : ℚ) < 256 := by norm_num
  -- the mosaic origin never exceeds the projected top-left corner
  have hox : ((min_tx * 256 : ℤ) : ℚ) ≤ x0 := by
    rw [← e1]
    push_cast
    rw [mul_comm]
    calc (256 : ℚ) * ⌊x0 / 256⌋ ≤ 256 * (x0 / 256) := by
          have := Int.floor_le (x0 / 256)
          linarith
      _ = x0 := by field_simp
  have hoy : ((min_ty * 256 : ℤ) : ℚ) ≤ y_top := by
    rw [← e3]
    push_cast
    rw [mul_comm]
    calc (256 : ℚ) * ⌊y_top / 256⌋ ≤ 256 * (y_top / 256) := by
          have := Int.floor_le (y_top / 256)
          linarith
      _ = y_top := by field_simp
  -- the projected bottom-right corner stays inside the mosaic extent
  have hwx : x1 - ((min_tx * 256 : ℤ) : ℚ) ≤ (((max_tx - min_tx + 1) * 256 : ℤ) : ℚ) := by
    rw [← e1, ← e2]
    push_cast
    have hlt : x1 / 256 < ⌊x1 / 256⌋ + 1 := Int.lt_floor_add_one _
    have : x1 < (⌊x1 / 256⌋ + 1) * 256 := by
      have := mul_lt_mul_of_pos_right hlt h256
      rw [div_mul_cancel₀ x1 (ne_of_gt h256)] at this
      linarith
    linarith
  have hwy : y_bottom - ((min_ty * 256 : ℤ) : ℚ)
      ≤ (((max_ty - min_ty + 1) * 256 : ℤ) : ℚ) := by
    rw [← e3, ← e4]
    push_cast
    have hlt : y_bottom / 256 < ⌊y_bottom / 256⌋ + 1 := Int.lt_floor_add_one _
    have : y_bottom < (⌊y_bottom / 256⌋ + 1) * 256 := by
      have := mul_lt_mul_of_pos_right hlt h256
      rw [div_mul_cancel₀ y_bottom (ne_of_gt h256)] at this
      linarith
    linarith
  have hfl0 : 0 ≤ ⌊x0 - ((min_tx * 256 : ℤ) : ℚ)⌋ :=
    Int.floor_nonneg.mpr (by linarith)
  have hft0 : 0 ≤ ⌊y_top - ((min_ty * 256 : ℤ) : ℚ)⌋ :=
    Int.floor_nonneg.mpr (by linarith)
  have hcr : ⌈x1 - ((min_tx * 256 : ℤ) : ℚ)⌉ ≤ (max_tx - min_tx + 1) * 256 := by
    rw [Int.ceil_le]
    exact_mod_cast hwx
  have hcb : ⌈y_bottom - ((min_ty * 256 : ℤ) : ℚ)⌉ ≤ (max_ty - min_ty + 1) * 256 := by
    rw [Int.ceil_le]
    exact_mod_cast hwy
  have hl2 : left = ⌊x0 - ((min_tx * 256 : ℤ) : ℚ)⌋ := by
    rw [← hl, max_eq_right hfl0]
  have ht2 : top = ⌊y_top - ((min_ty * 256 : ℤ) : ℚ)⌋ := by
    rw [← ht, max_eq_right hft0]
  have hr2 : right = ⌈x1 - ((min_tx * 256 : ℤ) : ℚ)⌉ := by
    rw [← hr, min_eq_right hcr]
  have hb2 : bottom = ⌈y_bottom - ((min_ty * 256 : ℤ) : ℚ)⌉ := by
    rw [← hb, min_eq_right hcb]
  have hlr : left ≤ right := by
    rw [hl2, hr2]
    exact le_trans (Int.floor_le_floor (by linarith)) (Int.floor_le_ceil _)
  have htb : top ≤ bottom := by
    rw [ht2, hb2]
    exact le_trans (Int.floor_le_floor (by linarith)) (Int.floor_le_ceil _)
  constructor
  · exact ⟨hl2 ▸ hfl0, hlr, hr2 ▸ hcr, ht2 ▸ hft0, htb, hb2 ▸ hcb⟩
  · have hcm : crop_mosaic x0 x1 y_top y_bottom min_tx max_tx min_ty max_ty
        = (if max 0 (bottom - top) * max 0 (right - left) = 0 then
            (Except.error "EmptyCrop" : Except String (ℤ × ℤ × ℤ × ℤ))
          else Except.ok (left, top, right, bottom)) := by
      simp only [crop_mosaic, hw0]
    rw [hcm]
    split_ifs with hz
    · simp [hz, Except.isOk, Except.toBool]
    · simp [hz, Except.isOk, Except.toBool]

/-- C7 (witness): concrete projected corners (10, 5) and (100, 50) resolve
to the single tile (0, 0); the crop window (10, 5, 100, 50) is within
the 256-pixel extent and the crop succeeds (nonzero area). -/
theorem crop_window_clamped_witness :
    (0 ≤ (10 : ℤ) ∧ (10 : ℤ) ≤ 100 ∧ (100 : ℤ) ≤ ((0 : ℤ) - 0 + 1) * 256 ∧
     0 ≤ (5 : ℤ) ∧ (5 : ℤ) ≤ 50 ∧ (50 : ℤ) ≤ ((0 : ℤ) - 0 + 1) * 256) ∧
    ((crop_mosaic 10 100 5 50 0 0 0 0).isOk = false ↔
      max 0 ((50 : ℤ) - 5) * max 0 ((100 : ℤ) - 10) = 0) :=
  crop_window_clamped 10 100 5 50 0 0 0 0 10 5 100 50
    (by norm_num) (by norm_num)
    (by simp only [resolve_tile_range, Prod.mk.injEq]
        refine ⟨?_, ?_, ?_, ?_⟩ <;> (rw [Int.floor_eq_iff]; norm_num))
    (by simp only [crop_window, Prod.mk.injEq]
        refine ⟨?_, ?_, ?_, ?_⟩
        · rw [show (⌊(10 : ℚ) - (((0 : ℤ) * 256 : ℤ) : ℚ)⌋ : ℤ) = 10 by
            rw [Int.floor_eq_iff]; norm_num]
          norm_num
        · rw [show (⌊(5 : ℚ) - (((0 : ℤ) * 256 : ℤ) : ℚ)⌋ : ℤ) = 5 by
            rw [Int.floor_eq_iff]; norm_num]
          norm_num
        · rw [show (⌈(100 : ℚ) - (((0 : ℤ) * 256 : ℤ) : ℚ)⌉ : ℤ) = 100 by
            rw [Int.ceil_eq_iff]; norm_num]
          norm_num
        · rw [show (⌈(50 : ℚ) - (((0 : ℤ) * 256 : ℤ) : ℚ)⌉ : ℤ) = 50 by
            rw [Int.ceil_eq_iff]; norm_num]
          norm_num)

/-! ### Projector boundedness at the latitude boundary -/

/-- C8: for latitude exactly +85° or −85° (any longitude and zoom), the
Projector produces finite pixel coordinates: the clamped sine keeps the
logarithm argument strictly positive (so no infinity or NaN can arise),
and the y coordinate deviates from `0.5 × scale` by at most
`log 19999 / (4π) × scale`, an explicit finite bound. -/
theorem projector_finite_at_85 (lon lat : ℝ) (zoom : ℕ)
    (_h : lat = 85 ∨ lat = -85) :
    0 < (1 + clamped_siny lat) / (1 - clamped_siny lat) ∧
    (lonlat_to_global_pixel lon lat zoom).2 =
      (0.5 - Real.log ((1 + clamped_siny lat) / (1 - clamped_siny lat)) / (4 * Real.pi)) *
        ((TILE_SIZE : ℝ) * 2 ^ zoom) ∧
    |(lonlat_to_global_pixel lon lat zoom).2 - 0.5 * ((TILE_SIZE : ℝ) * 2 ^ zoom)| ≤
      Real.log 19999 / (4 * Real.pi) * ((TILE_SIZE : ℝ) * 2 ^ zoom) := by
  have hs2 : clamped_siny lat ≤ 0.9999 := min_le_right _ _
  have hs1 : -0.9999 ≤ clamped_siny lat :=
    le_min (le_max_right _ _) (by norm_num)
  have h1p : (0 : ℝ) < 1 + clamped_siny lat := by linarith
  have h1m : (0 : ℝ) < 1 - clamped_siny lat := by linarith
  have hpos : 0 < (1 + clamped_siny lat) / (1 - clamped_siny lat) :=
    div_pos h1p h1m
  have hub : (1 + clamped_siny lat) / (1 - clamped_siny lat) ≤ 19999 := by
    rw [div_le_iff₀ h1m]
    linarith
  have hlb : (19999 : ℝ)⁻¹ ≤ (1 + clamped_siny lat) / (1 - clamped_siny lat) := by
    rw [le_div_iff₀ h1m]
    linarith
  have habs : |Real.log ((1 + clamped_siny lat) / (1 - clamped_siny lat))|
      ≤ Real.log 19999 := by
    rw [abs_le]
    constructor
    · rw [← Real.log_inv]
      exact Real.log_le_log (by norm_num) hlb
    · exact Real.log_le_log hpos hub
  have hscale : (0 : ℝ) ≤ (TILE_SIZE : ℝ) * 2 ^ zoom := by positivity
  have hpi : (0 : ℝ) < 4 * Real.pi := by positivity
  have hy : (lonlat_to_global_pixel lon lat zoom).2 =
      (0.5 - Real.log ((1 + clamped_siny lat) / (1 - clamped_siny lat)) / (4 * Real.pi)) *
        ((TILE_SIZE : ℝ) * 2 ^ zoom) := rfl
  refine ⟨hpos, hy, ?_⟩
  rw [hy]
  have step1 :
      (0.5 - Real.log ((1 + clamped_siny lat) / (1 - clamped_siny lat)) / (4 * Real.pi)) *
          ((TILE_SIZE : ℝ) * 2 ^ zoom) -
        0.5 * ((TILE_SIZE : ℝ) * 2 ^ zoom)
      = -(Real.log ((1 + clamped_siny lat) / (1 - clamped_siny lat)) / (4 * Real.pi) *
          ((TILE_SIZE : ℝ) * 2 ^ zoom)) := by ring
  rw [step1, abs_neg, abs_mul, abs_div, abs_of_nonneg hscale, abs_of_pos hpi]
  exact mul_le_mul_of_nonneg_right ((div_le_div_iff_of_pos_right hpi).mpr habs) hscale

/-- C8 (witness): the bound instantiated at longitude 0, latitude 85°,
zoom 0. -/
theorem projector_finite_at_85_witness :
    0 < (1 + clamped_siny 85) / (1 - clamped_siny 85) ∧
    (lonlat_to_global_pixel 0 85 0).2 =
      (0.5 - Real.log ((1 + clamped_siny 85) / (1 - clamped_siny 85)) / (4 * Real.pi)) *
        ((TILE_SIZE : ℝ) * 2 ^ (0 : ℕ)) ∧
    |(lonlat_to_global_pixel 0 85 0).2 - 0.5 * ((TILE_SIZE : ℝ) * 2 ^ (0 : ℕ))| ≤
      Real.log 19999 / (4 * Real.pi) * ((TILE_SIZE : ℝ) * 2 ^ (0 : ℕ)) :=
  projector_finite_at_85 0 85 0 (Or.inl rfl)

end MapContourMapper
